import Mathlib

/-!
# Verification of the NovaDrive playback controller (src/components/Player.tsx)

Shallow embedding of the `Player` component's playback controller: its React
state (`isPlaying`, `currentTime`, `duration`, `error`), its refs
(`playPromiseRef`, `isInitialMount`, `audioCtxRef`), the lazily built audio
graph (`initAudioContext`), the track-change effect with its `attemptPlay`,
`togglePlay`, and the element event handlers.

The asynchronous structure is embedded as a small-step machine faithful to the
browser event loop:

* Each `async` function is split at its `await` suspension points.  The
  synchronous prefix runs inside the task that invoked it; the remainder is a
  continuation (`Waiter`) registered on the promise it awaits.
* The playback element keeps a batch of pending start operations
  (`pendingN` play-promises plus the `waiters` awaiting them).  As in the
  platform's media element, all pending play promises of an element settle
  together: a settlement moves every waiter into the microtask queue `microQ`
  with a single shared `Outcome`.
* `load()` and `pause()` settle any pending start operations with an
  abort-class rejection, as the platform's media load and pause algorithms do.
* Task-level actions (user intents, element events, platform settlements) may
  fire only when `microQ` is empty, modelling run-to-completion of microtasks
  before the next task; `Act.runNext` runs the continuation at the head of
  `microQ`.

The audio element is rendered exactly when a track is selected (the component
returns `null` without one), so element presence is `track ≠ none` here.
Instrumentation fields (`logs`, `uncaught`, `ctxCreated`, `srcNodesCreated`,
`analysersCreated`, `resumeChecks`, `resumes`) record console output, faults
escaping the controller uncaught, and audio-graph construction work; they let
theorems speak about "logged", "uncaught fault" and "constructed once".
-/

namespace NovaPlayer

/-- A continuation suspended at an `await` on a pending start operation:
the tail of the effect's `attemptPlay` (after `await playPromiseRef.current`),
the tail of `togglePlay`'s start branch, or the tail of `togglePlay`'s pause
branch (which awaits the pending start before calling `pause()`). -/
inductive Waiter where
  | attempt
  | togglePlayK
  | togglePauseK
deriving DecidableEq

/-- How a start operation settles: success, an abort-class rejection
(`AbortError`, superseded by a newer load or pause), or any other rejection
(e.g. autoplay policy, unsupported source). -/
inductive Outcome where
  | success
  | abortErr
  | otherErr
deriving DecidableEq

/-- The user-facing message `togglePlay` sets on a failed explicit start. -/
def unableMsg : String := "Unable to play this source."

/-- The message `handleAudioError` sets on an element error event. -/
def loadFailMsg : String := "Failed to load audio source."

/-- Console text of `attemptPlay`'s non-abort failure log. -/
def playFailLog : String := "Playback failed or was prevented"

/-- Console text of `togglePlay`'s failure log. -/
def manualFailLog : String := "Manual play failed"

/-- Console text of `togglePlay`'s pause-branch failure log. -/
def pauseFailLog : String := "Pause failed"

/-- Console text of `handleAudioError`. -/
def audioErrLog : String := "Audio source error detected"

/-- The whole controller state: React state, refs, element state, the pending
start-operation batch, the microtask queue, and instrumentation. -/
structure PlayerState where
  isPlaying : Bool
  currentTime : Rat
  duration : Rat
  error : Option String
  /-- `playPromiseRef.current ≠ null` (the handle, not the promise identity:
  the source nulls it unconditionally in every `finally`). -/
  playPromiseRef : Bool
  isInitialMount : Bool
  /-- `audioCtxRef.current`: `none` = not constructed, `some b` = constructed
  with `b` meaning the context is in the suspended state. -/
  audioCtx : Option Bool
  /-- the `analyser` React state has been set. -/
  analyser : Bool
  /-- the `track` prop (by id); the audio element is rendered iff it is set. -/
  track : Option Nat
  elemPaused : Bool
  /-- element `readyState > 0` (some data buffered). -/
  elemHasData : Bool
  elemErrored : Bool
  elemPos : Rat
  elemDur : Rat
  /-- number of start operations (play promises) outstanding on the element. -/
  pendingN : Nat
  /-- continuations awaiting the current pending batch, in registration order. -/
  waiters : List Waiter
  /-- woken continuations (microtask queue), each with its settled outcome. -/
  microQ : List (Waiter × Outcome)
  logs : List String
  /-- count of exceptions that escaped a handler uncaught into the app. -/
  uncaught : Nat
  ctxCreated : Nat
  srcNodesCreated : Nat
  analysersCreated : Nat
  /-- number of times the resume-if-suspended check was evaluated. -/
  resumeChecks : Nat
  resumes : Nat
deriving DecidableEq

/-- Settle every outstanding start operation of the element with one shared
outcome, moving all their waiters to the microtask queue (the platform settles
an element's pending play promises together). -/
def settleAll (o : Outcome) (s : PlayerState) : PlayerState :=
  { s with pendingN := 0, waiters := [],
           microQ := s.microQ ++ s.waiters.map (fun w => (w, o)) }

/-- `audioRef.current.load()`: abort-settles pending start operations, resets
buffered data, the errored flag and the element position. -/
def loadElem (s : PlayerState) : PlayerState :=
  { settleAll Outcome.abortErr s with
    elemHasData := false, elemErrored := false, elemPos := 0, elemDur := 0 }

/-- `audioRef.current.pause()`: pauses and abort-settles pending start
operations (the platform's pause algorithm rejects them with `AbortError`). -/
def pauseElem (s : PlayerState) : PlayerState :=
  { settleAll Outcome.abortErr s with elemPaused := true }

/-- `audioRef.current.play()`: issues one more start operation; the paused
attribute flips synchronously. -/
def playElem (s : PlayerState) : PlayerState :=
  { s with pendingN := s.pendingN + 1, elemPaused := false }

/-- The construction half of `initAudioContext`: if no context exists and the
element is present, build context, media-element source node and analyser,
wire them, and publish the analyser. -/
def constructGraph (susp0 : Bool) (s : PlayerState) : PlayerState :=
  if s.audioCtx = none ∧ s.track ≠ none then
    { s with audioCtx := some susp0, analyser := true,
             ctxCreated := s.ctxCreated + 1,
             srcNodesCreated := s.srcNodesCreated + 1,
             analysersCreated := s.analysersCreated + 1 }
  else s

/-- The resume half of `initAudioContext`: the suspended-state check runs on
every call; when the context exists and is suspended it is resumed. -/
def resumeCheck (s : PlayerState) : PlayerState :=
  if s.audioCtx = some true then
    { s with resumeChecks := s.resumeChecks + 1, audioCtx := some false,
             resumes := s.resumes + 1 }
  else { s with resumeChecks := s.resumeChecks + 1 }

/-- `initAudioContext` from the source: lazy idempotent construction followed
by the resume-if-suspended check.  `susp0` is the (environment-chosen)
suspended state a freshly constructed context starts in. -/
def initAudioContext (susp0 : Bool) (s : PlayerState) : PlayerState :=
  resumeCheck (constructGraph susp0 s)

/-- `initAudioContext` as it can fail: `new AudioContext()` may throw when the
browser denies context creation.  `fail = true` makes a construction attempt
throw; `none` is the escaped exception.  No construction is attempted (so no
throw) when the context already exists or the element is absent. -/
def initAudioContextT (fail susp0 : Bool) (s : PlayerState) : Option PlayerState :=
  if fail ∧ s.audioCtx = none ∧ s.track ≠ none then none
  else some (initAudioContext susp0 s)

/-- The synchronous prefix of the effect's `attemptPlay`: ensure the audio
graph (inside the `try`), issue `play()`, record the handle, and suspend
awaiting it.  A thrown construction failure lands in the `catch` (non-abort,
so logged), sets `isPlaying` false, and the `finally` nulls the handle. -/
def attemptPlay (fail susp0 : Bool) (s : PlayerState) : PlayerState :=
  match initAudioContextT fail susp0 s with
  | none =>
      { s with logs := s.logs ++ [playFailLog], isPlaying := false,
               playPromiseRef := false }
  | some s1 =>
      let s2 := playElem s1
      { s2 with playPromiseRef := true,
                waiters := s2.waiters ++ [Waiter.attempt] }

/-- The `useEffect` body for a track change to track `t` (the guard
`track && audioRef.current` holds: a concrete track is supplied and the
element is rendered with it): clear `error`, force a reload, and either
consume the initial-mount flag (cold start: no auto-play) or run
`attemptPlay`. -/
def loadTrackEffect (t : Nat) (fail susp0 : Bool) (s : PlayerState) : PlayerState :=
  let s1 := loadElem { s with track := some t, error := none }
  if s1.isInitialMount then { s1 with isInitialMount := false }
  else attemptPlay fail susp0 s1

/-- The synchronous prefix of `togglePlay`.  Without an element or track it
returns at once.  Playing: if a start is pending, suspend awaiting it (the
pause happens in the continuation), else pause immediately.  Paused:
`initAudioContext()` runs before the `try`, so a thrown construction failure
escapes uncaught; otherwise reload if nothing is buffered, issue `play()`,
record the handle and suspend awaiting it. -/
def togglePlay (fail susp0 : Bool) (s : PlayerState) : PlayerState :=
  if s.track = none then s
  else if s.isPlaying then
    if s.playPromiseRef then
      { s with waiters := s.waiters ++ [Waiter.togglePauseK] }
    else
      { pauseElem s with isPlaying := false }
  else
    match initAudioContextT fail susp0 s with
    | none => { s with uncaught := s.uncaught + 1 }
    | some s1 =>
        let s2 := if s1.elemHasData then s1 else loadElem s1
        let s3 := playElem s2
        { s3 with playPromiseRef := true,
                  waiters := s3.waiters ++ [Waiter.togglePlayK] }

/-- Run one woken continuation with the outcome its awaited start settled
with.  `attempt`: success sets `isPlaying` true, abort is swallowed silently,
other failures are logged; all paths null the handle in the `finally`.
`togglePlayK`: success sets `isPlaying` true and clears `error`; any rejection
(abort included — the source does not distinguish) logs and sets the
user-facing error.  `togglePauseK`: success pauses and sets `isPlaying`
false; a rejection only logs. -/
def runCont1 (w : Waiter) (o : Outcome) (s : PlayerState) : PlayerState :=
  match w, o with
  | Waiter.attempt, Outcome.success =>
      { s with isPlaying := true, playPromiseRef := false }
  | Waiter.attempt, Outcome.abortErr =>
      { s with isPlaying := false, playPromiseRef := false }
  | Waiter.attempt, Outcome.otherErr =>
      { s with logs := s.logs ++ [playFailLog], isPlaying := false,
               playPromiseRef := false }
  | Waiter.togglePlayK, Outcome.success =>
      { s with isPlaying := true, error := none, playPromiseRef := false }
  | Waiter.togglePlayK, _ =>
      { s with logs := s.logs ++ [manualFailLog], error := some unableMsg,
               playPromiseRef := false }
  | Waiter.togglePauseK, Outcome.success =>
      { pauseElem s with isPlaying := false }
  | Waiter.togglePauseK, _ =>
      { s with logs := s.logs ++ [pauseFailLog] }

/-- `handleTimeUpdate`: copy the element position into displayed time. -/
def handleTimeUpdate (s : PlayerState) : PlayerState :=
  { s with currentTime := s.elemPos }

/-- `handleLoadedMetadata`: copy the element duration into displayed duration. -/
def handleLoadedMetadata (s : PlayerState) : PlayerState :=
  { s with duration := s.elemDur }

/-- `handleAudioError`: log, set the load-failure error, stop playing. -/
def handleAudioError (s : PlayerState) : PlayerState :=
  { s with logs := s.logs ++ [audioErrLog], error := some loadFailMsg,
           isPlaying := false }

/-- `handleSeek t`: set the element position directly and update the displayed
time optimistically, without waiting for an element event. -/
def handleSeek (t : Rat) (s : PlayerState) : PlayerState :=
  { s with elemPos := t, currentTime := t }

/-- Scheduler actions: user intents, platform settlements, element events, and
running the next microtask.  `fail` is the environment's choice of whether an
attempted audio-context construction throws. -/
inductive Act where
  | selectTrack (t : Nat) (fail : Bool)
  | toggle (fail : Bool)
  | settleSuccess
  | settleOther
  | errorEvent
  | timeUpdate
  | metadataEvent (d : Rat)
  | seek (t : Rat)
  | runNext

/-- One scheduler step; `none` when the action is not enabled.  Task-level
actions require the microtask queue to be drained.  `toggle` additionally
requires the transport button to be rendered and enabled: a track selected and
no error set (the source disables the button on `error`).  Start operations
settle successfully only on a non-errored element; an element error event runs
`handleAudioError` and rejects the pending starts (non-abort).  Seek positions
are constrained to the range input's bounds. -/
def stepFn (a : Act) (s : PlayerState) : Option PlayerState :=
  match a with
  | Act.runNext =>
      match s.microQ with
      | [] => none
      | (w, o) :: rest => some (runCont1 w o { s with microQ := rest })
  | Act.selectTrack t fail =>
      if s.microQ = [] then some (loadTrackEffect t fail true s) else none
  | Act.toggle fail =>
      if s.microQ = [] ∧ s.error = none ∧ s.track ≠ none then
        some (togglePlay fail true s)
      else none
  | Act.settleSuccess =>
      if s.microQ = [] ∧ 0 < s.pendingN ∧ s.elemErrored = false then
        some { settleAll Outcome.success s with elemHasData := true }
      else none
  | Act.settleOther =>
      if s.microQ = [] ∧ 0 < s.pendingN then some (settleAll Outcome.otherErr s)
      else none
  | Act.errorEvent =>
      if s.microQ = [] ∧ s.track ≠ none then
        some (settleAll Outcome.otherErr
          { handleAudioError s with elemErrored := true })
      else none
  | Act.timeUpdate =>
      if s.microQ = [] ∧ s.track ≠ none then some (handleTimeUpdate s) else none
  | Act.metadataEvent d =>
      if s.microQ = [] ∧ s.track ≠ none then
        some (handleLoadedMetadata { s with elemDur := d, elemHasData := true })
      else none
  | Act.seek t =>
      if s.microQ = [] ∧ s.track ≠ none ∧ 0 ≤ t ∧ t ≤ s.duration then
        some (handleSeek t s)
      else none

/-- The freshly mounted component: nothing playing, no track, no context, the
initial-mount flag set. -/
def init0 : PlayerState :=
  { isPlaying := false, currentTime := 0, duration := 0, error := none,
    playPromiseRef := false, isInitialMount := true, audioCtx := none,
    analyser := false, track := none, elemPaused := true,
    elemHasData := false, elemErrored := false, elemPos := 0, elemDur := 0,
    pendingN := 0, waiters := [], microQ := [], logs := [], uncaught := 0,
    ctxCreated := 0, srcNodesCreated := 0, analysersCreated := 0,
    resumeChecks := 0, resumes := 0 }

/-- Run a list of scheduler actions in order; `none` if one is not enabled. -/
def run (acts : List Act) (s : PlayerState) : Option PlayerState :=
  match acts with
  | [] => some s
  | a :: rest =>
      match stepFn a s with
      | none => none
      | some s1 => run rest s1

/-- States the controller can reach from mount. -/
inductive Reachable : PlayerState → Prop where
  | init : Reachable init0
  | step {s s' : PlayerState} {a : Act} :
      Reachable s → stepFn a s = some s' → Reachable s'

/-! ## Shared concrete states for witnesses and counterexamples -/

/-- A state right after the first track was assigned (cold start consumed the
initial-mount flag is still pending here: flag still set). -/
def sTracked : PlayerState := { init0 with track := some 0 }

/-- A quiescent paused state on track 0 with buffered data, past the initial
mount: no start pending, empty microtask queue. -/
def sIdle : PlayerState :=
  { init0 with track := some 0, isInitialMount := false, elemHasData := true }

/-- C5 counterexample trace: a user starts playback explicitly while paused
(the start stays pending), then switches tracks; the track-change `load()`
rejects the explicit start with an abort-class error, and its continuation
sets the user-facing error. -/
def c5Trace : List Act :=
  [Act.selectTrack 0 false, Act.toggle false, Act.selectTrack 1 false]

/-- The reachable state with the abort-rejected explicit start about to run. -/
def sC5a : PlayerState := (run c5Trace init0).getD init0

/-- The state after that abort-class resolution runs. -/
def sC5b : PlayerState := (stepFn Act.runNext sC5a).getD init0

/-- C6 counterexample trace: explicit start pending → track switch aborts it →
its continuation sets `error` → the new track's automatic start succeeds and
sets `isPlaying` without clearing `error`. -/
def c6Trace : List Act :=
  [Act.selectTrack 0 false, Act.toggle false, Act.selectTrack 1 false,
   Act.runNext, Act.settleSuccess, Act.runNext]

/-- The reachable state violating mutual exclusion of `error` and
`isPlaying`. -/
def sC6 : PlayerState := (run c6Trace init0).getD init0

/-- C1 counterexample trace: first track selected (cold start), metadata
arrives, then two `togglePlay` clicks in a row — the second lands while the
first click's start operation is still pending. -/
def c1TracePre : List Act :=
  [Act.selectTrack 0 false, Act.metadataEvent 100, Act.toggle false]

/-- The reachable state with one start operation outstanding. -/
def sC1mid : PlayerState := (run c1TracePre init0).getD init0

/-- The state after a second `togglePlay` issued while the first start is
still pending. -/
def sC1 : PlayerState := (stepFn (Act.toggle false) sC1mid).getD init0

/-- A reachable-shaped concrete state: playing, with a start operation pending
and its handle recorded. -/
def sPlayingPending : PlayerState :=
  { sIdle with
    isPlaying := true
    playPromiseRef := true
    pendingN := 1
    waiters := [Waiter.togglePlayK] }

/-- C8 counterexample trace: first track selected, then an explicit
`togglePlay` during which `new AudioContext()` throws — the call sits before
the `try` block, so the exception escapes the controller uncaught. -/
def c8Trace : List Act := [Act.selectTrack 0 false, Act.toggle true]

/-- The reachable state with one uncaught fault escaped to the application. -/
def sC8 : PlayerState := (run c8Trace init0).getD init0

/-- A reachable state with the element-load error displayed: first track
selected, then the element fires its error event. -/
def sErr : PlayerState :=
  (run [Act.selectTrack 0 false, Act.errorEvent] init0).getD init0

/-- Inductive invariant of the reachable states, capturing the event-loop
structure: (1) a successfully settled continuation coexists with no registered
waiter (its settlement settled the whole batch); (2) all queued continuations
share one settlement's outcome class — success entries never mix with failure
entries; (3) a queued failed explicit-start continuation implies the
controller is not playing (the explicit start was issued from the paused
branch and nothing can have started since); (4) a registered explicit-start
waiter likewise implies not playing; (5) a queued successful pause
continuation implies no start operation is pending and no waiter registered;
(6) while the element-load error is displayed, the controller is paused, no
start is pending, and no queued continuation can succeed. -/
def Inv (s : PlayerState) : Prop :=
  (∀ p ∈ s.microQ, p.2 = Outcome.success → s.waiters = []) ∧
  (∀ p ∈ s.microQ, ∀ q ∈ s.microQ, p.2 = Outcome.success →
    q.2 = Outcome.success) ∧
  (∀ p ∈ s.microQ, p.1 = Waiter.togglePlayK → p.2 ≠ Outcome.success →
    s.isPlaying = false) ∧
  (Waiter.togglePlayK ∈ s.waiters → s.isPlaying = false) ∧
  (∀ p ∈ s.microQ, p.1 = Waiter.togglePauseK → p.2 = Outcome.success →
    s.pendingN = 0 ∧ s.waiters = []) ∧
  (s.error = some loadFailMsg →
    s.isPlaying = false ∧ s.pendingN = 0 ∧
    ∀ p ∈ s.microQ, p.2 ≠ Outcome.success)

/-! ## Theorems -/

theorem run_reachable (acts : List Act) :
    ∀ s s' : PlayerState, Reachable s → run acts s = some s' → Reachable s' := by
  induction acts with
  | nil =>
      intro s s' hs h
      simp only [run] at h
      cases h
      exact hs
  | cons a rest ih =>
      intro s s' hs h
      simp only [run] at h
      cases hst : stepFn a s with
      | none => rw [hst] at h; cases h
      | some s1 =>
          rw [hst] at h
          exact ih s1 s' (Reachable.step hs hst) h

/-! ## Frame lemmas: fields `initAudioContext` never touches -/

@[simp] theorem initAudioContext_microQ (b : Bool) (s : PlayerState) :
    (initAudioContext b s).microQ = s.microQ := by
  simp only [initAudioContext, constructGraph, resumeCheck]
  split <;> split <;> rfl

@[simp] theorem initAudioContext_waiters (b : Bool) (s : PlayerState) :
    (initAudioContext b s).waiters = s.waiters := by
  simp only [initAudioContext, constructGraph, resumeCheck]
  split <;> split <;> rfl

@[simp] theorem initAudioContext_pendingN (b : Bool) (s : PlayerState) :
    (initAudioContext b s).pendingN = s.pendingN := by
  simp only [initAudioContext, constructGraph, resumeCheck]
  split <;> split <;> rfl

@[simp] theorem initAudioContext_track (b : Bool) (s : PlayerState) :
    (initAudioContext b s).track = s.track := by
  simp only [initAudioContext, constructGraph, resumeCheck]
  split <;> split <;> rfl

@[simp] theorem initAudioContext_elemHasData (b : Bool) (s : PlayerState) :
    (initAudioContext b s).elemHasData = s.elemHasData := by
  simp only [initAudioContext, constructGraph, resumeCheck]
  split <;> split <;> rfl

@[simp] theorem initAudioContext_elemErrored (b : Bool) (s : PlayerState) :
    (initAudioContext b s).elemErrored = s.elemErrored := by
  simp only [initAudioContext, constructGraph, resumeCheck]
  split <;> split <;> rfl

@[simp] theorem initAudioContext_error (b : Bool) (s : PlayerState) :
    (initAudioContext b s).error = s.error := by
  simp only [initAudioContext, constructGraph, resumeCheck]
  split <;> split <;> rfl

@[simp] theorem initAudioContext_isPlaying (b : Bool) (s : PlayerState) :
    (initAudioContext b s).isPlaying = s.isPlaying := by
  simp only [initAudioContext, constructGraph, resumeCheck]
  split <;> split <;> rfl

@[simp] theorem initAudioContext_isInitialMount (b : Bool) (s : PlayerState) :
    (initAudioContext b s).isInitialMount = s.isInitialMount := by
  simp only [initAudioContext, constructGraph, resumeCheck]
  split <;> split <;> rfl

@[simp] theorem initAudioContext_logs (b : Bool) (s : PlayerState) :
    (initAudioContext b s).logs = s.logs := by
  simp only [initAudioContext, constructGraph, resumeCheck]
  split <;> split <;> rfl

@[simp] theorem initAudioContext_playPromiseRef (b : Bool) (s : PlayerState) :
    (initAudioContext b s).playPromiseRef = s.playPromiseRef := by
  simp only [initAudioContext, constructGraph, resumeCheck]
  split <;> split <;> rfl

@[simp] theorem initAudioContext_uncaught (b : Bool) (s : PlayerState) :
    (initAudioContext b s).uncaught = s.uncaught := by
  simp only [initAudioContext, constructGraph, resumeCheck]
  split <;> split <;> rfl

/-! ## Helper lemmas about the track-change effect -/

theorem loadTrackEffect_microQ_eq (t : Nat) (fail susp0 : Bool)
    (s : PlayerState) :
    (loadTrackEffect t fail susp0 s).microQ =
      s.microQ ++ s.waiters.map (fun w => (w, Outcome.abortErr)) := by
  simp only [loadTrackEffect, loadElem, settleAll, attemptPlay,
    initAudioContextT]
  split
  · rfl
  · split
    · rfl
    · rename_i s1 heq
      split at heq
      · simp at heq
      · injection heq with h
        subst h
        simp [playElem]

theorem loadTrackEffect_error_eq (t : Nat) (fail susp0 : Bool)
    (s : PlayerState) : (loadTrackEffect t fail susp0 s).error = none := by
  simp only [loadTrackEffect, loadElem, settleAll, attemptPlay,
    initAudioContextT]
  split
  · rfl
  · split
    · rfl
    · rename_i s1 heq
      split at heq
      · simp at heq
      · injection heq with h
        subst h
        simp [playElem]

theorem loadTrackEffect_waiters_eq (t : Nat) (fail susp0 : Bool)
    (s : PlayerState) :
    (loadTrackEffect t fail susp0 s).waiters = [] ∨
      (loadTrackEffect t fail susp0 s).waiters = [Waiter.attempt] := by
  simp only [loadTrackEffect, loadElem, settleAll, attemptPlay,
    initAudioContextT]
  split
  · exact Or.inl rfl
  · split
    · exact Or.inl rfl
    · rename_i s1 heq
      split at heq
      · simp at heq
      · injection heq with h
        subst h
        right
        simp [playElem]

theorem loadTrackEffect_isPlaying_eq (t : Nat) (fail susp0 : Bool)
    (s : PlayerState) :
    (loadTrackEffect t fail susp0 s).isPlaying = s.isPlaying ∨
      (loadTrackEffect t fail susp0 s).isPlaying = false := by
  simp only [loadTrackEffect, loadElem, settleAll, attemptPlay,
    initAudioContextT]
  split
  · exact Or.inl rfl
  · split
    · exact Or.inr rfl
    · rename_i s1 heq
      split at heq
      · simp at heq
      · injection heq with h
        subst h
        left
        simp [playElem]

/-! ## The invariant is preserved by every step -/

theorem stepFn_preserves_inv (a : Act) (s s' : PlayerState)
    (hs : Inv s) (h : stepFn a s = some s') : Inv s' := by
  obtain ⟨hA, hB, hC, hD, hE, hF⟩ := hs
  cases a with
  | selectTrack t fail =>
      simp only [stepFn] at h
      split at h
      · rename_i hq
        injection h with h'
        subst h'
        unfold Inv
        rw [loadTrackEffect_microQ_eq, loadTrackEffect_error_eq, hq]
        refine ⟨?_, ?_, ?_, ?_, ?_, by simp⟩
        · intro p hp
          simp at hp
          obtain ⟨w, hw, rfl⟩ := hp
          simp
        · intro p hp
          simp at hp
          obtain ⟨w, hw, rfl⟩ := hp
          simp
        · intro p hp h1 h2
          simp at hp
          obtain ⟨w, hw, rfl⟩ := hp
          simp at h1
          subst h1
          rcases loadTrackEffect_isPlaying_eq t fail true s with hip | hip
          · rw [hip]
            exact hD hw
          · exact hip
        · intro hm
          rcases loadTrackEffect_waiters_eq t fail true s with hwt | hwt <;>
            rw [hwt] at hm <;> simp at hm
        · intro p hp
          simp at hp
          obtain ⟨w, hw, rfl⟩ := hp
          simp
      · cases h
  | toggle fail =>
      simp only [stepFn] at h
      split at h
      · rename_i hg
        obtain ⟨hq, he, ht⟩ := hg
        injection h with h'
        subst h'
        cases hip : s.isPlaying with
        | true =>
            cases hr : s.playPromiseRef with
            | true =>
                have heq : togglePlay fail true s =
                    { s with waiters := s.waiters ++ [Waiter.togglePauseK] } := by
                  simp [togglePlay, ht, hip, hr]
                rw [heq]
                unfold Inv
                refine ⟨by simp [hq], by simp [hq], by simp [hq], ?_,
                  by simp [hq], by simp [he]⟩
                intro hm
                rcases List.mem_append.1 hm with hm1 | hm1
                · exact absurd (hD hm1) (by simp [hip])
                · simp at hm1
            | false =>
                have heq : togglePlay fail true s =
                    { pauseElem s with isPlaying := false } := by
                  simp [togglePlay, ht, hip, hr]
                rw [heq]
                unfold Inv
                simp only [pauseElem, settleAll]
                refine ⟨?_, ?_, ?_, ?_, ?_, ?_⟩ <;> simp [hq, he]
        | false =>
            cases hfe : initAudioContextT fail true s with
            | none =>
                have heq : togglePlay fail true s =
                    { s with uncaught := s.uncaught + 1 } := by
                  simp [togglePlay, ht, hip, hfe]
                rw [heq]
                unfold Inv
                refine ⟨by simp [hq], by simp [hq], by simp [hq],
                  fun hm => hip, by simp [hq], by simp [he]⟩
            | some s1 =>
                have hs1 : s1 = initAudioContext true s := by
                  simp only [initAudioContextT] at hfe
                  split at hfe
                  · cases hfe
                  · injection hfe with h2
                    exact h2.symm
                subst hs1
                cases hd : s.elemHasData with
                | true =>
                    have heq : togglePlay fail true s =
                        { playElem (initAudioContext true s) with
                          playPromiseRef := true
                          waiters := s.waiters ++ [Waiter.togglePlayK] } := by
                      simp [togglePlay, ht, hip, hfe, hd, playElem]
                    rw [heq]
                    unfold Inv
                    simp only [playElem]
                    refine ⟨?_, ?_, ?_, ?_, ?_, ?_⟩ <;>
                      simp [hq, he, hip]
                | false =>
                    have heq : togglePlay fail true s =
                        { playElem (loadElem (initAudioContext true s)) with
                          playPromiseRef := true
                          waiters := [Waiter.togglePlayK] } := by
                      simp [togglePlay, ht, hip, hfe, hd, loadElem, settleAll,
                        playElem]
                    rw [heq]
                    unfold Inv
                    simp only [playElem, loadElem, settleAll]
                    refine ⟨?_, ?_, ?_, ?_, ?_, ?_⟩ <;>
                      simp [hq, he, hip]
      · cases h
  | settleSuccess =>
      simp only [stepFn] at h
      split at h
      · rename_i hg
        obtain ⟨hq, hpend, herr⟩ := hg
        injection h with h'
        subst h'
        unfold Inv
        simp only [settleAll]
        refine ⟨?_, ?_, ?_, ?_, ?_, ?_⟩ <;> simp [hq]
        intro he
        have := (hF he).2.1
        omega
      · cases h
  | settleOther =>
      simp only [stepFn] at h
      split at h
      · rename_i hg
        obtain ⟨hq, hpend⟩ := hg
        injection h with h'
        subst h'
        unfold Inv
        simp only [settleAll]
        refine ⟨?_, ?_, ?_, ?_, ?_, ?_⟩ <;> simp [hq]
        · intro w hw hwk
          exact hD (hwk ▸ hw)
        · intro he
          exact (hF he).1
      · cases h
  | errorEvent =>
      simp only [stepFn] at h
      split at h
      · rename_i hg
        obtain ⟨hq, ht⟩ := hg
        injection h with h'
        subst h'
        unfold Inv
        simp only [settleAll, handleAudioError]
        refine ⟨?_, ?_, ?_, ?_, ?_, ?_⟩ <;> simp [hq]
      · cases h
  | timeUpdate =>
      simp only [stepFn] at h
      split at h
      · injection h with h'
        subst h'
        exact ⟨hA, hB, hC, hD, hE, hF⟩
      · cases h
  | metadataEvent d =>
      simp only [stepFn] at h
      split at h
      · injection h with h'
        subst h'
        exact ⟨hA, hB, hC, hD, hE, hF⟩
      · cases h
  | seek t =>
      simp only [stepFn] at h
      split at h
      · injection h with h'
        subst h'
        exact ⟨hA, hB, hC, hD, hE, hF⟩
      · cases h
  | runNext =>
      simp only [stepFn] at h
      cases hmq : s.microQ with
      | nil => rw [hmq] at h; cases h
      | cons p rest =>
          rw [hmq] at h
          obtain ⟨w, o⟩ := p
          injection h with h'
          subst h'
          have hmem : ∀ q ∈ rest, q ∈ s.microQ := by
            intro q hqm
            rw [hmq]
            exact List.mem_cons_of_mem _ hqm
          have hhead : ((w, o) : Waiter × Outcome) ∈ s.microQ := by
            rw [hmq]
            exact List.mem_cons_self _ _
          unfold Inv
          cases w <;> cases o <;> simp only [runCont1]
          case attempt.success =>
            have hw0 : s.waiters = [] := hA (Waiter.attempt, Outcome.success) hhead rfl
            refine ⟨fun p hp h2 => hw0, ?_, ?_, ?_, ?_, ?_⟩
            · exact fun p hp q hqm h2 => hB p (hmem p hp) q (hmem q hqm) h2
            · intro p hp h1 h2
              exact absurd (hB _ hhead _ (hmem p hp) rfl) h2
            · intro hm
              rw [hw0] at hm
              cases hm
            · intro p hp h1 h2
              exact hE p (hmem p hp) h1 h2
            · intro he
              exact absurd rfl ((hF he).2.2 _ hhead)
          case attempt.abortErr =>
            refine ⟨fun p hp h2 => hA p (hmem p hp) h2, ?_, ?_, ?_, ?_, ?_⟩
            · exact fun p hp q hqm h2 => hB p (hmem p hp) q (hmem q hqm) h2
            · exact fun p hp h1 h2 => trivial
            · exact fun hm => trivial
            · exact fun p hp h1 h2 => hE p (hmem p hp) h1 h2
            · exact fun he => ⟨trivial, (hF he).2.1,
                fun p hp => (hF he).2.2 p (hmem p hp)⟩
          case attempt.otherErr =>
            refine ⟨fun p hp h2 => hA p (hmem p hp) h2, ?_, ?_, ?_, ?_, ?_⟩
            · exact fun p hp q hqm h2 => hB p (hmem p hp) q (hmem q hqm) h2
            · exact fun p hp h1 h2 => trivial
            · exact fun hm => trivial
            · exact fun p hp h1 h2 => hE p (hmem p hp) h1 h2
            · exact fun he => ⟨trivial, (hF he).2.1,
                fun p hp => (hF he).2.2 p (hmem p hp)⟩
          case togglePlayK.success =>
            have hw0 : s.waiters = [] :=
              hA (Waiter.togglePlayK, Outcome.success) hhead rfl
            refine ⟨fun p hp h2 => hw0, ?_, ?_, ?_, ?_, ?_⟩
            · exact fun p hp q hqm h2 => hB p (hmem p hp) q (hmem q hqm) h2
            · intro p hp h1 h2
              exact absurd (hB _ hhead _ (hmem p hp) rfl) h2
            · intro hm
              rw [hw0] at hm
              cases hm
            · intro p hp h1 h2
              exact hE p (hmem p hp) h1 h2
            · intro he
              cases he
          case togglePlayK.abortErr =>
            have hplay : s.isPlaying = false :=
              hC (Waiter.togglePlayK, Outcome.abortErr) hhead rfl (by simp)
            refine ⟨fun p hp h2 => hA p (hmem p hp) h2, ?_, ?_, ?_, ?_, ?_⟩
            · exact fun p hp q hqm h2 => hB p (hmem p hp) q (hmem q hqm) h2
            · exact fun p hp h1 h2 => hplay
            · exact fun hm => hplay
            · exact fun p hp h1 h2 => hE p (hmem p hp) h1 h2
            · intro he
              exact absurd he (by decide)
          case togglePlayK.otherErr =>
            have hplay : s.isPlaying = false :=
              hC (Waiter.togglePlayK, Outcome.otherErr) hhead rfl (by simp)
            refine ⟨fun p hp h2 => hA p (hmem p hp) h2, ?_, ?_, ?_, ?_, ?_⟩
            · exact fun p hp q hqm h2 => hB p (hmem p hp) q (hmem q hqm) h2
            · exact fun p hp h1 h2 => hplay
            · exact fun hm => hplay
            · exact fun p hp h1 h2 => hE p (hmem p hp) h1 h2
            · intro he
              exact absurd he (by decide)
          case togglePauseK.success =>
            have hpw : s.pendingN = 0 ∧ s.waiters = [] :=
              hE (Waiter.togglePauseK, Outcome.success) hhead rfl rfl
            simp only [pauseElem, settleAll, hpw.2, List.map_nil,
              List.append_nil]
            refine ⟨fun p hp h2 => trivial, ?_, ?_, ?_, ?_, ?_⟩
            · exact fun p hp q hqm h2 => hB p (hmem p hp) q (hmem q hqm) h2
            · exact fun p hp h1 h2 => trivial
            · intro hm
              cases hm
            · exact fun p hp h1 h2 => ⟨trivial, trivial⟩
            · exact fun he => ⟨trivial, trivial,
                fun p hp => (hF he).2.2 p (hmem p hp)⟩
          case togglePauseK.abortErr =>
            refine ⟨fun p hp h2 => hA p (hmem p hp) h2, ?_, ?_, ?_, ?_, ?_⟩
            · exact fun p hp q hqm h2 => hB p (hmem p hp) q (hmem q hqm) h2
            · exact fun p hp h1 h2 => hC p (hmem p hp) h1 h2
            · exact fun hm => hD hm
            · exact fun p hp h1 h2 => hE p (hmem p hp) h1 h2
            · exact fun he => ⟨(hF he).1, (hF he).2.1,
                fun p hp => (hF he).2.2 p (hmem p hp)⟩
          case togglePauseK.otherErr =>
            refine ⟨fun p hp h2 => hA p (hmem p hp) h2, ?_, ?_, ?_, ?_, ?_⟩
            · exact fun p hp q hqm h2 => hB p (hmem p hp) q (hmem q hqm) h2
            · exact fun p hp h1 h2 => hC p (hmem p hp) h1 h2
            · exact fun hm => hD hm
            · exact fun p hp h1 h2 => hE p (hmem p hp) h1 h2
            · exact fun he => ⟨(hF he).1, (hF he).2.1,
                fun p hp => (hF he).2.2 p (hmem p hp)⟩

/-- Every reachable state satisfies the invariant. -/
theorem reachable_inv (s : PlayerState) (h : Reachable s) : Inv s := by
  induction h with
  | init =>
      unfold Inv
      simp [init0]
  | step hr hst ih => exact stepFn_preserves_inv _ _ _ ih hst

/-! ## Claim theorems -/

/-- C7: the audio-graph ensure operation (`initAudioContext`) is idempotent:
from a state with no context and a rendered element, the first call constructs
exactly one processing context, one media-element source node and one analyser
node; the second call constructs nothing and differs from the first call's
result only by having performed one more resume-if-suspended check; and the
resume check runs on every call (both calls bump `resumeChecks`), regardless
of the suspended state `b`/`c` the environment gives a fresh context. -/
theorem C7_initAudioContext_idempotent (b c : Bool) (s : PlayerState)
    (h1 : s.audioCtx = none) (h2 : s.track ≠ none) :
    (initAudioContext b s).ctxCreated = s.ctxCreated + 1 ∧
    (initAudioContext b s).srcNodesCreated = s.srcNodesCreated + 1 ∧
    (initAudioContext b s).analysersCreated = s.analysersCreated + 1 ∧
    (initAudioContext b s).resumeChecks = s.resumeChecks + 1 ∧
    initAudioContext c (initAudioContext b s) =
      { initAudioContext b s with
        resumeChecks := (initAudioContext b s).resumeChecks + 1 } := by
  cases b <;> cases c <;>
    simp [initAudioContext, constructGraph, resumeCheck, h1, h2]

/-- Witness for C7 at the concrete state `sTracked`. -/
theorem C7_witness :
    sTracked.audioCtx = none ∧ sTracked.track ≠ none ∧
    (initAudioContext true sTracked).ctxCreated = sTracked.ctxCreated + 1 ∧
    initAudioContext false (initAudioContext true sTracked) =
      { initAudioContext true sTracked with
        resumeChecks := (initAudioContext true sTracked).resumeChecks + 1 } := by
  refine ⟨rfl, by decide, ?_, ?_⟩
  · exact (C7_initAudioContext_idempotent true false sTracked rfl (by decide)).1
  · exact (C7_initAudioContext_idempotent true false sTracked rfl (by decide)).2.2.2.2

/-- C9: `handleSeek t` sets the element position to `t` and immediately (in
the same synchronous step, without waiting for an element event) sets the
displayed `currentTime` to `t`; and a later time-progress event carrying an
element position `p ≥ t` sets the displayed time to that position, so it never
drops below `t`. -/
theorem C9_seek_monotone (t : Rat) (s : PlayerState) :
    (handleSeek t s).elemPos = t ∧
    (handleSeek t s).currentTime = t ∧
    (∀ s2 : PlayerState, t ≤ s2.elemPos →
      t ≤ (handleTimeUpdate s2).currentTime) := by
  refine ⟨rfl, rfl, ?_⟩
  intro s2 h
  simpa [handleTimeUpdate] using h

/-- Witness for C9: seek to 5 on `sIdle`, then a time-progress event at
element position 7 ≥ 5. -/
theorem C9_witness :
    (handleSeek 5 sIdle).currentTime = 5 ∧
    ((5 : Rat) ≤ ({ sIdle with elemPos := 7 } : PlayerState).elemPos ∧
      (5 : Rat) ≤ (handleTimeUpdate { sIdle with elemPos := 7 }).currentTime) := by
  refine ⟨(C9_seek_monotone 5 sIdle).2.1, by norm_num, ?_⟩
  exact (C9_seek_monotone 5 sIdle).2.2 { sIdle with elemPos := 7 } (by norm_num)

/-- C10: with no track loaded (equivalently, with the playback element absent
— the element is rendered exactly when a track is set), `togglePlay` returns
immediately with the state completely unchanged: no field of the view state
changes and no start, pause or load operation reaches the element (the state
equality covers `pendingN`, `elemPaused` and the buffered-data flag). -/
theorem C10_togglePlay_noop (fail susp0 : Bool) (s : PlayerState)
    (h : s.track = none) : togglePlay fail susp0 s = s := by
  simp [togglePlay, h]

/-- Witness for C10 at the freshly mounted state. -/
theorem C10_witness : init0.track = none ∧ togglePlay true true init0 = init0 :=
  ⟨rfl, C10_togglePlay_noop true true init0 rfl⟩

/-- C2: switching tracks while start operations are pending settles every
superseded operation with an abort-class rejection (the forced `load()`
rejects the element's pending play promises), and the resolution of an
abort-rejected operation never sets `isPlaying` to true: the automatic
attempt's continuation sets it false, and the `togglePlay` continuations leave
it unchanged.  Hence a superseded start never sets `isPlaying = true` after
its track stopped being current. -/
theorem C2_no_stale_isPlaying :
    (∀ (t : Nat) (fail susp0 : Bool) (s : PlayerState),
      (loadTrackEffect t fail susp0 s).microQ =
        s.microQ ++ s.waiters.map (fun w => (w, Outcome.abortErr))) ∧
    (∀ (w : Waiter) (s : PlayerState),
      (runCont1 w Outcome.abortErr s).isPlaying =
        (if w = Waiter.attempt then false else s.isPlaying)) := by
  constructor
  · intro t fail susp0 s
    simp only [loadTrackEffect, loadElem, settleAll, attemptPlay,
      initAudioContextT]
    split
    · rfl
    · split
      · rfl
      · rename_i s1 heq
        split at heq
        · simp at heq
        · injection heq with h
          subst h
          simp [playElem]
  · intro w s
    cases w <;> simp [runCont1]

/-- C5 counterexample: in the reachable state `sC5a`, `error` is unset and the
only queued resolution is an abort-class failure of the explicit `togglePlay`
start; running exactly that resolution sets `error` to the user-facing
message.  So an abort-class failure is not swallowed on the explicit path,
refuting the claim's "on both the automatic and the explicit togglePlay
path". -/
theorem C5_counterexample :
    Reachable sC5a ∧ sC5a.error = none ∧
    sC5a.microQ = [(Waiter.togglePlayK, Outcome.abortErr)] ∧
    stepFn Act.runNext sC5a = some sC5b ∧
    sC5b.error = some unableMsg := by
  refine ⟨run_reachable c5Trace init0 sC5a Reachable.init (by decide),
    by decide, by decide, by decide, by decide⟩

/-- C5 amended: an abort-class failure of a start operation is swallowed
silently by the automatic post-track-change attempt (its resolution leaves
both `error` and the console log unchanged), but on the explicit `togglePlay`
path any rejection — abort-class included — is logged and sets the user-facing
error message. -/
theorem C5_abort_swallowed_only_automatic :
    (∀ s : PlayerState,
      (runCont1 Waiter.attempt Outcome.abortErr s).error = s.error ∧
      (runCont1 Waiter.attempt Outcome.abortErr s).logs = s.logs) ∧
    (∀ s : PlayerState,
      (runCont1 Waiter.togglePlayK Outcome.abortErr s).error = some unableMsg ∧
      (runCont1 Waiter.togglePlayK Outcome.abortErr s).logs =
        s.logs ++ [manualFailLog]) := by
  exact ⟨fun s => ⟨rfl, rfl⟩, fun s => ⟨rfl, rfl⟩⟩

/-- C6 counterexample: a reachable controller state has `error` set and
`isPlaying = true` at once, refuting mutual exclusion over all reachable
states. -/
theorem C6_counterexample :
    Reachable sC6 ∧ sC6.isPlaying = true ∧ sC6.error = some unableMsg := by
  refine ⟨run_reachable c6Trace init0 sC6 Reachable.init (by decide),
    by decide, by decide⟩

/-- C6 amended: every transition that sets `error` does leave a state with
`isPlaying = false` — the element-error handler forces it in the same step,
and in any reachable state a failed explicit-start continuation runs with the
controller already paused (by the reachability invariant), so its result also
has `isPlaying = false`; moreover in every reachable state the element-error
message implies `isPlaying = false`.  But mutual exclusion of `error` and
`isPlaying` does not hold in every reachable state (see the counterexample):
a later successful automatic start sets `isPlaying = true` without clearing a
stale explicit-start error. -/
theorem C6_error_forces_paused :
    (∀ s : PlayerState,
      (handleAudioError s).error = some loadFailMsg ∧
      (handleAudioError s).isPlaying = false) ∧
    (∀ (s s' : PlayerState) (o : Outcome) (rest : List (Waiter × Outcome)),
      Reachable s → o ≠ Outcome.success →
      s.microQ = (Waiter.togglePlayK, o) :: rest →
      stepFn Act.runNext s = some s' →
      s'.error = some unableMsg ∧ s'.isPlaying = false) ∧
    (∀ s : PlayerState, Reachable s → s.error = some loadFailMsg →
      s.isPlaying = false) := by
  refine ⟨fun s => ⟨rfl, rfl⟩, ?_, ?_⟩
  · intro s s' o rest hr hno hmq hst
    have hplay : s.isPlaying = false :=
      (reachable_inv s hr).2.2.1 (Waiter.togglePlayK, o)
        (by rw [hmq]; exact List.mem_cons_self _ _) rfl hno
    simp only [stepFn] at hst
    rw [hmq] at hst
    injection hst with h'
    subst h'
    cases o with
    | success => exact absurd rfl hno
    | abortErr => exact ⟨rfl, hplay⟩
    | otherErr => exact ⟨rfl, hplay⟩
  · intro s hr he
    exact ((reachable_inv s hr).2.2.2.2.2 he).1

/-- Witness for C6's amended theorem: the concrete reachable states `sC5a`
(failed explicit start about to resolve) and `sErr` (element error fired). -/
theorem C6_witness :
    (Reachable sC5a ∧ sC5a.microQ = [(Waiter.togglePlayK, Outcome.abortErr)] ∧
      stepFn Act.runNext sC5a = some sC5b) ∧
    (sC5b.error = some unableMsg ∧ sC5b.isPlaying = false) ∧
    (Reachable sErr ∧ sErr.error = some loadFailMsg ∧
      sErr.isPlaying = false) := by
  have hra : Reachable sC5a :=
    run_reachable c5Trace init0 sC5a Reachable.init (by decide)
  have hre : Reachable sErr :=
    run_reachable [Act.selectTrack 0 false, Act.errorEvent] init0 sErr
      Reachable.init (by decide)
  refine ⟨⟨hra, by decide, by decide⟩, ?_, hre, by decide, ?_⟩
  · exact C6_error_forces_paused.2.1 sC5a sC5b Outcome.abortErr [] hra
      (by decide) (by decide) (by decide)
  · exact C6_error_forces_paused.2.2 sErr hre (by decide)

/-- C1 counterexample: from the reachable state `sC1mid` with one start
operation outstanding, a second `togglePlay` (a new-playback intent) is
enabled and issues a second start without awaiting the first: afterwards two
start operations are outstanding on the element at once, refuting "at most one
start operation is outstanding at any instant". -/
theorem C1_counterexample :
    Reachable sC1mid ∧ sC1mid.pendingN = 1 ∧
    stepFn (Act.toggle false) sC1mid = some sC1 ∧ sC1.pendingN = 2 := by
  refine ⟨run_reachable c1TracePre init0 sC1mid Reachable.init (by decide),
    by decide, by decide, by decide⟩

/-- C1 amended: only the pause intent awaits a pending start before acting:
`togglePlay` while playing with a recorded pending start performs no element
operation at all — it just registers a continuation, and the pause itself runs
only once the start settles (the continuation pauses and clears `isPlaying`;
on rejection it does not pause).  A `togglePlay` issued while paused, by
contrast, issues a new start operation unconditionally — even with one already
outstanding — so at most-one-outstanding does not hold. -/
theorem C1_pause_awaits_pending (fail susp0 : Bool) (s : PlayerState)
    (ht : s.track ≠ none) (hp : s.isPlaying = true)
    (hr : s.playPromiseRef = true) :
    togglePlay fail susp0 s =
      { s with waiters := s.waiters ++ [Waiter.togglePauseK] } ∧
    (∀ u : PlayerState,
      (runCont1 Waiter.togglePauseK Outcome.success u).elemPaused = true ∧
      (runCont1 Waiter.togglePauseK Outcome.success u).isPlaying = false ∧
      (runCont1 Waiter.togglePauseK Outcome.abortErr u).elemPaused =
        u.elemPaused) ∧
    (∀ u : PlayerState, u.track ≠ none → u.isPlaying = false →
      u.elemHasData = true →
      (togglePlay false susp0 u).pendingN = u.pendingN + 1) := by
  refine ⟨?_, fun u => ⟨rfl, rfl, rfl⟩, ?_⟩
  · simp [togglePlay, ht, hp, hr]
  · intro u hut hup huh
    simp [togglePlay, initAudioContextT, playElem, hut, hup, huh]

/-- Witness for C1's amended theorem at concrete states. -/
theorem C1_witness :
    (sPlayingPending.track ≠ none ∧ sPlayingPending.isPlaying = true ∧
      sPlayingPending.playPromiseRef = true) ∧
    togglePlay false true sPlayingPending =
      { sPlayingPending with
        waiters := sPlayingPending.waiters ++ [Waiter.togglePauseK] } ∧
    (togglePlay false true sIdle).pendingN = sIdle.pendingN + 1 := by
  have h := C1_pause_awaits_pending false true sPlayingPending (by decide) rfl rfl
  exact ⟨⟨by decide, rfl, rfl⟩, h.1, h.2.2 sIdle (by decide) rfl rfl⟩

/-- C3: from a quiescent state, the very first track assignment after mount
consumes the initial-mount flag and starts nothing: `isPlaying` stays false,
no start operation is issued, no continuation is registered, and neither a
successful settlement nor a microtask step is even enabled (nothing can turn
`isPlaying` on without a new user intent).  Every subsequent track change
automatically issues exactly one start attempt, and when that start settles
successfully its continuation sets `isPlaying = true`. -/
theorem C3_cold_start_then_auto (t : Nat) (s : PlayerState)
    (hw : s.waiters = []) (hm : s.microQ = []) :
    (s.isInitialMount = true → s.isPlaying = false →
      (loadTrackEffect t false true s).isPlaying = false ∧
      (loadTrackEffect t false true s).pendingN = 0 ∧
      (loadTrackEffect t false true s).waiters = [] ∧
      (loadTrackEffect t false true s).microQ = [] ∧
      stepFn Act.settleSuccess (loadTrackEffect t false true s) = none ∧
      stepFn Act.runNext (loadTrackEffect t false true s) = none) ∧
    (s.isInitialMount = false →
      (loadTrackEffect t false true s).pendingN = 1 ∧
      (loadTrackEffect t false true s).waiters = [Waiter.attempt] ∧
      ((run [Act.settleSuccess, Act.runNext]
          (loadTrackEffect t false true s)).map (fun u => u.isPlaying)) =
        some true) := by
  constructor
  · intro h1 h2
    simp [loadTrackEffect, loadElem, settleAll, stepFn, run, h1, h2, hw, hm]
  · intro h1
    simp [loadTrackEffect, loadElem, settleAll, attemptPlay, initAudioContextT,
      playElem, stepFn, run, runCont1, h1, hw, hm]

/-- Witness for C3: cold start on `sTracked` (initial-mount flag still set),
automatic start on `sIdle` (past the initial mount). -/
theorem C3_witness :
    ((loadTrackEffect 0 false true sTracked).isPlaying = false ∧
      stepFn Act.settleSuccess (loadTrackEffect 0 false true sTracked) = none) ∧
    ((run [Act.settleSuccess, Act.runNext]
        (loadTrackEffect 1 false true sIdle)).map (fun u => u.isPlaying)) =
      some true := by
  have hcold := (C3_cold_start_then_auto 0 sTracked rfl rfl).1 rfl rfl
  have hauto := (C3_cold_start_then_auto 1 sIdle rfl rfl).2 rfl
  exact ⟨⟨hcold.1, hcold.2.2.2.2.1⟩, hauto.2.2⟩

/-- C4: from a quiescent paused state with buffered data, an explicit
`togglePlay` start that settles successfully sets `isPlaying = true` and
clears `error`; one that is rejected sets `error` to the user-facing message
`"Unable to play this source."` (non-empty) and leaves `isPlaying = false`.
A rejected automatic post-track-change start attempt instead leaves
`error = none` — it only appends the console log — with `isPlaying = false`. -/
theorem C4_explicit_vs_automatic_errors (t : Nat) (s : PlayerState)
    (hw : s.waiters = []) (hm : s.microQ = []) (hp : s.pendingN = 0)
    (he : s.elemErrored = false) :
    (s.track = some t → s.isPlaying = false → s.elemHasData = true →
      ((run [Act.settleSuccess, Act.runNext] (togglePlay false true s)).map
          (fun u => (u.isPlaying, u.error)) = some (true, none)) ∧
      ((run [Act.settleOther, Act.runNext] (togglePlay false true s)).map
          (fun u => (u.isPlaying, u.error)) =
        some (false, some unableMsg))) ∧
    (s.isInitialMount = false →
      ((run [Act.settleOther, Act.runNext]
          (loadTrackEffect t false true s)).map
          (fun u => (u.isPlaying, u.error, u.logs)) =
        some (false, none, s.logs ++ [playFailLog]))) := by
  constructor
  · intro h1 h2 h3
    constructor <;>
      simp [togglePlay, initAudioContextT, playElem, settleAll, stepFn, run,
        runCont1, h1, h2, h3, hw, hm, hp, he]
  · intro h1
    simp [loadTrackEffect, loadElem, settleAll, attemptPlay, initAudioContextT,
      playElem, stepFn, run, runCont1, h1, hw, hm]

/-- Witness for C4 at the concrete quiescent state `sIdle`. -/
theorem C4_witness :
    ((run [Act.settleSuccess, Act.runNext] (togglePlay false true sIdle)).map
        (fun u => (u.isPlaying, u.error)) = some (true, none)) ∧
    ((run [Act.settleOther, Act.runNext] (togglePlay false true sIdle)).map
        (fun u => (u.isPlaying, u.error)) = some (false, some unableMsg)) ∧
    ((run [Act.settleOther, Act.runNext]
        (loadTrackEffect 0 false true sIdle)).map
        (fun u => (u.isPlaying, u.error, u.logs)) =
      some (false, none, sIdle.logs ++ [playFailLog])) := by
  have h := C4_explicit_vs_automatic_errors 0 sIdle rfl rfl rfl rfl
  exact ⟨(h.1 rfl rfl rfl).1, (h.1 rfl rfl rfl).2, h.2 rfl⟩

/-- C8 counterexample: a reachable state records an uncaught fault that
escaped the controller (audio-context construction failure thrown outside
`togglePlay`'s `try`), refuting "never propagates as an uncaught fault". -/
theorem C8_counterexample : Reachable sC8 ∧ sC8.uncaught = 1 := by
  exact ⟨run_reachable c8Trace init0 sC8 Reachable.init (by decide), by decide⟩

/-- C8 amended: an audio-context construction failure during the automatic
post-track-change attempt is handled locally — no uncaught fault, no
user-facing error, only a console log — but it abandons the attempt (no start
operation is issued, `isPlaying` stays false) rather than letting playback
continue; and the same construction failure during an explicit `togglePlay`
escapes the controller as an uncaught fault, also without issuing a start. -/
theorem C8_construction_failure_paths (t : Nat) (s : PlayerState)
    (hm : s.isInitialMount = false) (hc : s.audioCtx = none)
    (hw : s.waiters = []) (hq : s.microQ = []) :
    (loadTrackEffect t true true s).uncaught = s.uncaught ∧
    (loadTrackEffect t true true s).error = none ∧
    (loadTrackEffect t true true s).isPlaying = false ∧
    (loadTrackEffect t true true s).pendingN = 0 ∧
    (loadTrackEffect t true true s).logs = s.logs ++ [playFailLog] ∧
    (∀ u : PlayerState, u.track ≠ none → u.isPlaying = false →
      u.audioCtx = none →
      (togglePlay true true u).uncaught = u.uncaught + 1 ∧
      (togglePlay true true u).pendingN = u.pendingN ∧
      (togglePlay true true u).isPlaying = u.isPlaying) := by
  have hauto : ∀ u : PlayerState, u.track ≠ none → u.isPlaying = false →
      u.audioCtx = none →
      (togglePlay true true u).uncaught = u.uncaught + 1 ∧
      (togglePlay true true u).pendingN = u.pendingN ∧
      (togglePlay true true u).isPlaying = u.isPlaying := by
    intro u hut hup huc
    simp [togglePlay, initAudioContextT, hut, hup, huc]
  refine ⟨?_, ?_, ?_, ?_, ?_, hauto⟩ <;>
    simp [loadTrackEffect, loadElem, settleAll, attemptPlay,
      initAudioContextT, hm, hc, hw, hq]

/-- Witness for C8's amended theorem at the concrete state `sIdle`. -/
theorem C8_witness :
    (loadTrackEffect 0 true true sIdle).uncaught = sIdle.uncaught ∧
    (loadTrackEffect 0 true true sIdle).error = none ∧
    (togglePlay true true sIdle).uncaught = sIdle.uncaught + 1 := by
  have h := C8_construction_failure_paths 0 sIdle rfl rfl rfl rfl
  exact ⟨h.1, h.2.1, (h.2.2.2.2.2 sIdle (by decide) rfl rfl).1⟩

end NovaPlayer
